import Mathlib

/-!
Verification development for the mail-merge pipeline in `MM_With_QR.py`.

The relevant parts of the program are shallowly embedded as executable Lean
definitions:

* Python string helpers (`str.strip`, `str.lower`, `str.upper`) are embedded
  as character-list operations (`pyStrip`, `pyLower`, `pyUpper`).
* `sanitize_filename` (source lines 27-31) is the chain of nine
  single-character `str.replace` calls.
* A spreadsheet row is a `Row` (the key column `Property_Account_No`, the
  `Property County` column and the `URL` column; all values are strings after
  `fillna("")`/`astype(str)`).
* `Account_Frequency` / `Occurrence_Number` (source lines 180-181, the
  pandas `groupby` `transform("count")` / `cumcount() + 1`) are `frequency`
  and `occurrence`.
* The mail-merge loop (source lines 193-222) is `runMerge`, a left fold over
  the indexed row list.  The possibility that `MailMerge`/`document.write`
  raises for a record is modelled by an oracle `fails : Nat → Bool` indexed
  by the row position; the files written to the output folder are modelled by
  an association-list disk mapping the file name to the index of the record
  whose merged content was written there.
* The combined-DOCX block (source lines 275-290, `docxcompose.Composer`) is
  `combineDocx`; `Document(path)` parse errors and `composer.append` errors
  are modelled by oracles indexed by the position in the generated list, and
  the produced combined document is a list of `DocItem`s (page contents and
  explicit page breaks).  A `none` result models an exception escaping to the
  outer run-level handler.
* `add_qr_to_pdf` (source lines 52-94) is `addQrToPdf` over an abstract PDF
  (a list of pages, each a list of content elements); the overlay merge of
  lines 77-89 is `addQrPages`.  Failures inside the `try` block are modelled
  by an oracle naming the stage that raises; a failure while the output file
  is open for writing (`open(out_pdf_path, "wb")` truncates before
  `writer.write` runs) leaves an empty (truncated) file.
* The QR loop (source lines 244-269) is `runQrStep`.
-/

set_option maxRecDepth 4000

namespace MMQR

/-- Embedding of Python `str.strip()` (drop leading and trailing whitespace). -/
def pyStrip (s : String) : String :=
  ⟨((s.data.dropWhile Char.isWhitespace).reverse.dropWhile Char.isWhitespace).reverse⟩

/-- Embedding of Python `str.lower()`. -/
def pyLower (s : String) : String :=
  ⟨s.data.map Char.toLower⟩

/-- Embedding of Python `str.upper()`. -/
def pyUpper (s : String) : String :=
  ⟨s.data.map Char.toUpper⟩

/-- One single-character `str.replace(a, b)` acting on one character. -/
def replC (a b c : Char) : Char :=
  if c = a then b else c

/-- One single-character `str.replace(a, b)` acting on a character list. -/
def replChar (a b : Char) (l : List Char) : List Char :=
  l.map (replC a b)

/-- Embedding of `sanitize_filename` (source lines 27-31): the chain of nine
`str.replace(c, "-")` calls, innermost first, in source order
`/ \ : * ? " < > |`. -/
def sanitize_filename (s : String) : String :=
  ⟨replChar '|' '-' (replChar '>' '-' (replChar '<' '-' (replChar '"' '-'
    (replChar '?' '-' (replChar '*' '-' (replChar ':' '-' (replChar '\\' '-'
      (replChar '/' '-' s.data))))))))⟩

/-- The nine reserved filename characters replaced by `sanitize_filename`. -/
def reservedChars : List Char :=
  ['/', '\\', ':', '*', '?', '"', '<', '>', '|']

/-- The per-character action of `sanitize_filename`: reserved characters map
to a dash, every other character is unchanged. -/
def sanChar (c : Char) : Char :=
  if c ∈ reservedChars then '-' else c

/-- One spreadsheet record: the values of the key column
`Property_Account_No`, the `Property County` column and the `URL` column. -/
structure Row where
  key : String
  county : String
  url : String
deriving DecidableEq

/-- The key filter of the mail-merge loop (source lines 194-196):
`account = str(row.get(...)).strip()` followed by
`if not account or account.lower() == "nan": continue`. -/
def validKey (s : String) : Bool :=
  !(pyStrip s == "" || pyLower (pyStrip s) == "nan")

/-- Embedding of `Account_Frequency` (source line 180): the number of rows of the full
data frame whose key-column value equals `k`. -/
def frequency (rows : List Row) (k : String) : Nat :=
  (rows.filter (fun r => r.key == k)).length

/-- Embedding of `Occurrence_Number` (source line 181, `groupby(...).cumcount() + 1`):
one plus the number of rows before position `i` whose key-column value
equals `k`. -/
def occurrence (rows : List Row) (i : Nat) (k : String) : Nat :=
  ((rows.take i).filter (fun r => r.key == k)).length + 1

/-- The `account` value as computed at source line 194. -/
def accountOf (r : Row) : String :=
  pyStrip r.key

/-- The `county` value as computed at source line 198
(`str(row.get("Property County", "Unknown")).strip().upper()`). -/
def countyOf (r : Row) : String :=
  pyUpper (pyStrip r.county)

/-- The base name (source lines 202-205) computed for the record at position
`i`, before sanitization. -/
def baseNamePre (rows : List Row) (i : Nat) (r : Row) : String :=
  if frequency rows r.key > 1 ∧ occurrence rows i r.key > 1 then
    accountOf r ++ "_" ++ countyOf r ++ "_Mailout"
  else
    accountOf r ++ "_Mailout"

/-- The DOCX file name of the record at position `i`
(source lines 207-208). -/
def docxName (rows : List Row) (i : Nat) (r : Row) : String :=
  sanitize_filename (baseNamePre rows i r) ++ ".docx"

/-- The PDF file name recomputed by the QR loop for the record at position
`i` (source lines 253-259). -/
def pdfName (rows : List Row) (i : Nat) (r : Row) : String :=
  sanitize_filename (baseNamePre rows i r) ++ ".pdf"

/-- Writing a file: the newest write for a path shadows any older one. -/
def writeFile {α : Type} (d : List (String × α)) (p : String) (c : α) :
    List (String × α) :=
  (p, c) :: d

/-- Reading a file: the most recent write wins; `none` means the path does
not exist on disk. -/
def readFile {α : Type} : List (String × α) → String → Option α
  | [], _ => none
  | (q, v) :: d, p => if p = q then some v else readFile d p

/-- State of the DOCX generation loop (source lines 183-222):
the `generated_docx_list`, the `error_count`, the warnings issued so far
(modelled by the `account` they name) and the output folder contents
(file name ↦ index of the record whose merge output was written there). -/
structure MergeState where
  generated : List String
  errors : Nat
  warnings : List String
  disk : List (String × Nat)
deriving DecidableEq

/-- One iteration of the mail-merge loop (source lines 193-219) on the
indexed record `p`.  `fails i = true` models `MailMerge`/`merge`/`write`
raising for the record at position `i` (caught at lines 217-219). -/
def mergeStep (rows : List Row) (fails : Nat → Bool) (st : MergeState)
    (p : Nat × Row) : MergeState :=
  if validKey p.2.key then
    if fails p.1 then
      { st with errors := st.errors + 1,
                warnings := st.warnings ++ [accountOf p.2] }
    else
      { st with generated := st.generated ++ [docxName rows p.1 p.2],
                disk := writeFile st.disk (docxName rows p.1 p.2) p.1 }
  else
    st

/-- The whole mail-merge loop (source lines 193-222): a left fold of
`mergeStep` over the indexed rows. -/
def runMerge (rows : List Row) (fails : Nat → Bool) : MergeState :=
  List.foldl (mergeStep rows fails) ⟨[], 0, [], []⟩ rows.enum

/-- The oracle of a run in which no per-record operation raises. -/
def noFail (_ : Nat) : Bool := false

/-- A valid-key record whose merge attempt succeeds. -/
def isOk (fails : Nat → Bool) (p : Nat × Row) : Bool :=
  validKey p.2.key && !fails p.1

/-- A valid-key record whose merge attempt raises. -/
def isFail (fails : Nat → Bool) (p : Nat × Row) : Bool :=
  validKey p.2.key && fails p.1

/-- One item of the combined DOCX document: the full content of one appended
per-record document (identified by the index of the record that wrote it), or
an explicit page break inserted by `master_doc.add_page_break()`. -/
inductive DocItem where
  | content : Nat → DocItem
  | pageBreak : DocItem
deriving DecidableEq

/-- The append loop of the combined-DOCX block (source lines 279-286): for
each later document, skip it when it is missing on disk; otherwise
`Document(doc_path)` (whose failure, caught at line 285-286, is modelled by
`parseFails j` for the file at position `j` of the list), then
`master_doc.add_page_break()`, then `composer.append(doc_to_append)` (whose
failure is `appendFails j`; the already-added page break remains). -/
def combGo (disk : List (String × Nat)) (parseFails appendFails : Nat → Bool) :
    List String → Nat → List DocItem
  | [], _ => []
  | f :: fs, j =>
    match readFile disk f with
    | none => combGo disk parseFails appendFails fs (j + 1)
    | some c =>
      if parseFails j then combGo disk parseFails appendFails fs (j + 1)
      else if appendFails j then
        DocItem.pageBreak :: combGo disk parseFails appendFails fs (j + 1)
      else
        DocItem.pageBreak :: DocItem.content c ::
          combGo disk parseFails appendFails fs (j + 1)

/-- The combined-DOCX block (source lines 275-290), run when the generated
list is non-empty.  `Document(generated_docx_list[0])` seeds the combined
document directly, with no existence check and outside any record-level
`try`: a missing or unparseable first file raises to the run-level handler
(source line 365), modelled by `none`. -/
def combineDocx (files : List String) (disk : List (String × Nat))
    (parseFails appendFails : Nat → Bool) : Option (List DocItem) :=
  match files with
  | [] => none
  | f0 :: rest =>
    match readFile disk f0 with
    | none => none
    | some c0 =>
      if parseFails 0 then none
      else some (DocItem.content c0 :: combGo disk parseFails appendFails rest 1)

/-- Spec-side description of the combiner tail (spec §4.5): the remaining
documents in input order, each present document contributing one page break
followed by its content, each missing document silently skipped. -/
def expectedTail (disk : List (String × Nat)) : List String → List DocItem
  | [] => []
  | f :: fs =>
    (match readFile disk f with
     | none => []
     | some c => [DocItem.pageBreak, DocItem.content c]) ++ expectedTail disk fs

/-- One content element of a PDF page: either original page content or a QR
overlay (carrying the URL it encodes) composited onto the page. -/
inductive Elem where
  | orig : Nat → Elem
  | qr : String → Elem
deriving DecidableEq

/-- A fixed-layout page: its list of composited content elements. -/
abbrev Page := List Elem

/-- A fixed-layout (PDF) document: its list of pages. -/
abbrev PDF := List Page

/-- The page-merge part of `add_qr_to_pdf` (source lines 77-89):
`base_page.merge_page(overlay_page)` composites the overlay onto the existing
first page (`reader.pages[0]`), `writer.add_page(base_page)` emits it, and
the loop at lines 85-86 passes every remaining page through unchanged. -/
def addQrPages (p0 : Page) (rest : List Page) (url : String) : PDF :=
  (p0 ++ [Elem.qr url]) :: rest

/-- The stage at which the `try` block of `add_qr_to_pdf` (source lines
54-91) raises: reading the input PDF (`PdfReader`), generating/saving the QR
image, building the overlay canvas, or writing the output file (which has
already been opened with `open(out_pdf_path, "wb")`, truncating it). -/
inductive QrStage where
  | read
  | makeQr
  | overlay
  | write
deriving DecidableEq

/-- Embedding of `add_qr_to_pdf` (source lines 52-94).  All failures are caught (lines
92-94): the function returns `False` together with the new disk state and
the warning naming `os.path.basename(in_pdf_path)`.  A missing or empty
input PDF raises inside the `try` (at `PdfReader` resp. `reader.pages[0]`)
before the output file is opened; a `write`-stage failure happens after
`open(out_pdf_path, "wb")` truncated the output file, so it leaves an empty
file behind. -/
def addQrToPdf (disk : List (String × PDF)) (inPath outPath url : String)
    (failAt : Option QrStage) : Bool × List (String × PDF) × List String :=
  match readFile disk inPath with
  | none => (false, disk, [inPath])
  | some pages =>
    if failAt = some QrStage.read ∨ failAt = some QrStage.makeQr ∨
        failAt = some QrStage.overlay then
      (false, disk, [inPath])
    else
      match pages with
      | [] => (false, disk, [inPath])
      | p0 :: rest =>
        if failAt = some QrStage.write then
          (false, writeFile disk outPath [], [inPath])
        else
          (true, writeFile disk outPath (addQrPages p0 rest url), [])

/-- State of the QR loop (source lines 240-269): `qr_count`, the PDF files
on disk, and the warnings issued by `add_qr_to_pdf`. -/
structure QrState where
  qrCount : Nat
  disk : List (String × PDF)
  warnings : List String
deriving DecidableEq

/-- One iteration of the QR loop (source lines 244-267): skip invalid keys,
recompute the PDF name, and when the URL is non-empty and the PDF exists,
run `add_qr_to_pdf(pdf_path, pdf_path, url, ...)`, incrementing `qr_count`
only when it returns `True`. -/
def qrStep (rows : List Row) (qrFail : Nat → Option QrStage) (st : QrState)
    (p : Nat × Row) : QrState :=
  if validKey p.2.key then
    if pyStrip p.2.url ≠ "" ∧
        (readFile st.disk (pdfName rows p.1 p.2)).isSome then
      match addQrToPdf st.disk (pdfName rows p.1 p.2) (pdfName rows p.1 p.2)
          (pyStrip p.2.url) (qrFail p.1) with
      | (ok, disk2, warns) =>
        { qrCount := st.qrCount + (if ok then 1 else 0),
          disk := disk2,
          warnings := st.warnings ++ warns }
    else st
  else st

/-- The whole QR loop (source lines 244-269). -/
def runQrStep (rows : List Row) (disk0 : List (String × PDF))
    (qrFail : Nat → Option QrStage) : QrState :=
  List.foldl (qrStep rows qrFail) ⟨0, disk0, []⟩ rows.enum

/-- The oracle of a QR run in which no placement raises. -/
def noQrFail (_ : Nat) : Option QrStage := none

/-- Modelled from the spec: the repository's `src` contains no flow-document
(DOCX) anchored image placement — only the PDF overlay surface exists in
`MM_With_QR.py` — so the unit conversion of spec §4.4(a) is modelled from
the spec's words: input coordinates in inches convert to the document
format's native length unit at 914400 units per inch, truncated to
integer. -/
def inchesToEmu (q : ℚ) : ℤ :=
  Int.tdiv (q * 914400).num ((q * 914400).den : ℤ)

/-! ### Helper lemmas: sanitization -/

theorem sanChar_comp (c : Char) :
    replC '|' '-' (replC '>' '-' (replC '<' '-' (replC '"' '-' (replC '?' '-'
      (replC '*' '-' (replC ':' '-' (replC '\\' '-' (replC '/' '-' c)))))))) =
    sanChar c := by
  by_cases h1 : c = '/'
  · subst h1; decide
  by_cases h2 : c = '\\'
  · subst h2; decide
  by_cases h3 : c = ':'
  · subst h3; decide
  by_cases h4 : c = '*'
  · subst h4; decide
  by_cases h5 : c = '?'
  · subst h5; decide
  by_cases h6 : c = '"'
  · subst h6; decide
  by_cases h7 : c = '<'
  · subst h7; decide
  by_cases h8 : c = '>'
  · subst h8; decide
  by_cases h9 : c = '|'
  · subst h9; decide
  simp [replC, sanChar, reservedChars, h1, h2, h3, h4, h5, h6, h7, h8, h9]

theorem string_ext {a b : String} (h : a.data = b.data) : a = b := by
  cases a with
  | mk x =>
    cases b with
    | mk y =>
      simp only at h
      rw [h]

theorem sanitize_data_list : ∀ l : List Char,
    replChar '|' '-' (replChar '>' '-' (replChar '<' '-' (replChar '"' '-'
      (replChar '?' '-' (replChar '*' '-' (replChar ':' '-' (replChar '\\' '-'
        (replChar '/' '-' l)))))))) = l.map sanChar := by
  intro l
  induction l with
  | nil => rfl
  | cons c t ih =>
    simp only [replChar, List.map_cons] at ih ⊢
    rw [sanChar_comp c]
    rw [ih]

theorem sanitize_data (s : String) :
    (sanitize_filename s).data = s.data.map sanChar :=
  sanitize_data_list s.data

theorem sanChar_idem (c : Char) : sanChar (sanChar c) = sanChar c := by
  by_cases h : c ∈ reservedChars
  · have hc : sanChar c = '-' := by rw [sanChar, if_pos h]
    rw [hc]; decide
  · have hc : sanChar c = c := by rw [sanChar, if_neg h]
    rw [hc]
    exact hc

theorem sanitize_idem (s : String) :
    sanitize_filename (sanitize_filename s) = sanitize_filename s := by
  apply string_ext
  rw [sanitize_data, sanitize_data, List.map_map]
  exact List.map_congr_left fun c _ => sanChar_idem c

/-! ### Helper lemmas: the mail-merge loop -/

theorem mergeFold_spec (rows : List Row) (fails : Nat → Bool) :
    ∀ (l : List (Nat × Row)) (st : MergeState),
      List.foldl (mergeStep rows fails) st l =
        { generated := st.generated ++
            (l.filter (isOk fails)).map (fun p => docxName rows p.1 p.2),
          errors := st.errors + (l.filter (isFail fails)).length,
          warnings := st.warnings ++
            (l.filter (isFail fails)).map (fun p => accountOf p.2),
          disk := ((l.filter (isOk fails)).map
            (fun p => (docxName rows p.1 p.2, p.1))).reverse ++ st.disk } := by
  intro l
  induction l with
  | nil =>
    intro st
    simp [isOk, isFail]
  | cons p t ih =>
    intro st
    rw [List.foldl_cons, ih]
    by_cases hv : validKey p.2.key
    · by_cases hf : fails p.1
      · simp [mergeStep, isOk, isFail, hv, hf, List.filter_cons]
        omega
      · simp [mergeStep, isOk, isFail, hv, hf, List.filter_cons, writeFile]
    · simp [mergeStep, isOk, isFail, hv, List.filter_cons]

theorem runMerge_spec (rows : List Row) (fails : Nat → Bool) :
    runMerge rows fails =
      { generated := (rows.enum.filter (isOk fails)).map
          (fun p => docxName rows p.1 p.2),
        errors := (rows.enum.filter (isFail fails)).length,
        warnings := (rows.enum.filter (isFail fails)).map
          (fun p => accountOf p.2),
        disk := ((rows.enum.filter (isOk fails)).map
          (fun p => (docxName rows p.1 p.2, p.1))).reverse } := by
  rw [runMerge, mergeFold_spec]
  simp

theorem mem_enumFrom_get :
    ∀ (l : List Row) (n i : Nat) (h : i < l.length),
      (n + i, l.get ⟨i, h⟩) ∈ List.enumFrom n l := by
  intro l
  induction l with
  | nil =>
    intro n i h
    exact absurd h (Nat.not_lt_zero i)
  | cons a t ih =>
    intro n i h
    cases i with
    | zero =>
      simp [List.enumFrom]
    | succ j =>
      have hj : j < t.length := Nat.lt_of_succ_lt_succ h
      have hmem := ih (n + 1) j hj
      have harith : n + (j + 1) = (n + 1) + j := by omega
      rw [List.enumFrom, harith]
      exact List.mem_cons_of_mem _ hmem

theorem mem_enum_get (rows : List Row) (i : Nat) (h : i < rows.length) :
    (i, rows.get ⟨i, h⟩) ∈ rows.enum := by
  have := mem_enumFrom_get rows 0 i h
  rwa [Nat.zero_add] at this

theorem length_filter_enumFrom (q : Row → Bool) :
    ∀ (l : List Row) (n : Nat),
      ((List.enumFrom n l).filter (fun p => q p.2)).length =
        (l.filter q).length := by
  intro l
  induction l with
  | nil => intro n; rfl
  | cons a t ih =>
    intro n
    by_cases hq : q a
    · simp [List.enumFrom, List.filter_cons, hq, ih]
    · simp [List.enumFrom, List.filter_cons, hq, ih]

theorem length_filter_add_length_not {α : Type} (p : α → Bool) (l : List α) :
    (l.filter p).length + (l.filter (fun a => !p a)).length = l.length := by
  induction l with
  | nil => rfl
  | cons a t ih =>
    by_cases hp : p a
    · simp only [List.filter_cons, hp, Bool.not_true, if_true, if_false,
        Bool.false_eq_true, List.length_cons]
      omega
    · simp only [List.filter_cons, hp, Bool.not_false, if_true, if_false,
        Bool.false_eq_true, List.length_cons]
      omega

/-! ### Helper lemmas: the disk and the combiner -/

theorem readFile_mem {α : Type} :
    ∀ (d : List (String × α)) (p : String) (c : α),
      readFile d p = some c → (p, c) ∈ d := by
  intro d
  induction d with
  | nil =>
    intro p c h
    simp [readFile] at h
  | cons e t ih =>
    intro p c h
    cases e with
    | mk q v =>
      rw [readFile] at h
      by_cases hpq : p = q
      · rw [if_pos hpq] at h
        cases h
        rw [hpq]
        exact List.mem_cons_self _ _
      · rw [if_neg hpq] at h
        exact List.mem_cons_of_mem _ (ih p c h)

theorem runMerge_disk_ok (rows : List Row) (fails : Nat → Bool) (p : String)
    (c : Nat) (h : readFile (runMerge rows fails).disk p = some c) :
    fails c = false := by
  rw [runMerge_spec] at h
  have hmem := readFile_mem _ _ _ h
  simp only at hmem
  rw [List.mem_reverse] at hmem
  rcases List.mem_map.mp hmem with ⟨pr, hpr, heq⟩
  rcases List.mem_filter.mp hpr with ⟨-, hok⟩
  have hc : pr.1 = c := congrArg Prod.snd heq
  rw [isOk, Bool.and_eq_true] at hok
  rw [← hc]
  simpa using hok.2

theorem mem_combGo (disk : List (String × Nat)) (pf af : Nat → Bool) :
    ∀ (fs : List String) (j : Nat) (x : DocItem),
      x ∈ combGo disk pf af fs j →
      x = DocItem.pageBreak ∨
        ∃ f c, readFile disk f = some c ∧ x = DocItem.content c := by
  intro fs
  induction fs with
  | nil =>
    intro j x hx
    simp [combGo] at hx
  | cons f t ih =>
    intro j x hx
    rw [combGo] at hx
    cases hrf : readFile disk f with
    | none =>
      rw [hrf] at hx
      exact ih _ x hx
    | some c =>
      rw [hrf] at hx
      dsimp only at hx
      by_cases hpf : pf j
      · rw [if_pos hpf] at hx
        exact ih _ x hx
      · rw [if_neg hpf] at hx
        by_cases haf : af j
        · rw [if_pos haf] at hx
          rcases List.mem_cons.mp hx with hb | hx2
          · exact Or.inl hb
          · exact ih _ x hx2
        · rw [if_neg haf] at hx
          rcases List.mem_cons.mp hx with hb | hx2
          · exact Or.inl hb
          · rcases List.mem_cons.mp hx2 with hc | hx3
            · exact Or.inr ⟨f, c, hrf, hc⟩
            · exact ih _ x hx3

theorem combGo_nofail (disk : List (String × Nat)) :
    ∀ (fs : List String) (j : Nat),
      combGo disk noFail noFail fs j = expectedTail disk fs := by
  intro fs
  induction fs with
  | nil => intro j; rfl
  | cons f t ih =>
    intro j
    rw [combGo, expectedTail]
    cases hrf : readFile disk f with
    | none => simp [noFail, ih]
    | some c => simp [noFail, ih]

theorem combGo_skip_missing (disk : List (String × Nat))
    (pf af : Nat → Bool) (f : String) (fs : List String) (j : Nat)
    (h : readFile disk f = none) :
    combGo disk pf af (f :: fs) j = combGo disk pf af fs (j + 1) := by
  rw [combGo, h]

theorem combGo_append_fail (disk : List (String × Nat))
    (pf af : Nat → Bool) (f : String) (fs : List String) (j : Nat) (c : Nat)
    (hrf : readFile disk f = some c) (hpf : pf j = false)
    (haf : af j = true) :
    combGo disk pf af (f :: fs) j =
      DocItem.pageBreak :: combGo disk pf af fs (j + 1) := by
  rw [combGo, hrf]
  simp [hpf, haf]

theorem combGo_parse_fail (disk : List (String × Nat))
    (pf af : Nat → Bool) (f : String) (fs : List String) (j : Nat) (c : Nat)
    (hrf : readFile disk f = some c) (hpf : pf j = true) :
    combGo disk pf af (f :: fs) j = combGo disk pf af fs (j + 1) := by
  rw [combGo, hrf]
  simp [hpf]

theorem combineDocx_seeded (disk : List (String × Nat)) (pf af : Nat → Bool)
    (f0 : String) (rest : List String) (c0 : Nat)
    (h0 : readFile disk f0 = some c0) (hp0 : pf 0 = false) :
    combineDocx (f0 :: rest) disk pf af =
      some (DocItem.content c0 :: combGo disk pf af rest 1) := by
  rw [combineDocx, h0]
  simp [hp0]

/-! ### Helper lemmas: frequency and occurrence over the filtered set -/

theorem filter_key_of_valid (k : String) (hk : validKey k = true) :
    ∀ l : List Row,
      (l.filter (fun r => validKey r.key)).filter (fun r => r.key == k) =
        l.filter (fun r => r.key == k) := by
  intro l
  induction l with
  | nil => rfl
  | cons r t ih =>
    by_cases hrk : r.key == k
    · have hke : r.key = k := eq_of_beq hrk
      have hvr : validKey r.key = true := by rw [hke]; exact hk
      simp [List.filter_cons, hrk, hvr, ih]
    · by_cases hvr : validKey r.key
      · simp [List.filter_cons, hrk, hvr, ih]
      · simp [List.filter_cons, hrk, hvr, ih]

theorem filter_take_prefix {α : Type} (p : α → Bool) :
    ∀ (l : List α) (n : Nat),
      (l.filter p).take (((l.take n).filter p).length) = (l.take n).filter p := by
  intro l
  induction l with
  | nil => intro n; simp
  | cons a t ih =>
    intro n
    cases n with
    | zero => simp
    | succ m =>
      by_cases hp : p a
      · simp only [List.take_succ_cons, List.filter_cons, hp, if_true,
          List.length_cons, List.take_succ_cons]
        rw [ih]
      · simp only [List.take_succ_cons, List.filter_cons, hp,
          Bool.false_eq_true, if_false]
        exact ih m

/-! ### Claims -/

/-- C5: filename sanitization replaces each of the nine characters
`/ \ : * ? " < > |` with a dash, alters no other character, and is
idempotent: for every string `s`,
`sanitize_filename (sanitize_filename s) = sanitize_filename s`. -/
theorem c5_sanitize_charwise_idempotent :
    (∀ s : String,
        sanitize_filename (sanitize_filename s) = sanitize_filename s) ∧
    (∀ s : String, (sanitize_filename s).data = s.data.map sanChar) ∧
    (∀ c : Char, c ∈ reservedChars → sanChar c = '-') ∧
    (∀ c : Char, c ∉ reservedChars → sanChar c = c) := by
  refine ⟨sanitize_idem, sanitize_data, ?_, ?_⟩
  · intro c hc
    rw [sanChar, if_pos hc]
  · intro c hc
    rw [sanChar, if_neg hc]

/-- Witness for C5 at concrete inputs. -/
theorem c5_sanitize_charwise_idempotent_witness :
    sanitize_filename (sanitize_filename "a/b") = sanitize_filename "a/b" ∧
    sanChar '/' = '-' ∧
    sanitize_filename "a/b:c?d" = "a-b-c-d" :=
  ⟨c5_sanitize_charwise_idempotent.1 "a/b",
   c5_sanitize_charwise_idempotent.2.2.1 '/' (by decide),
   by decide⟩

/-- C7: only the first page of a fixed-layout (PDF) document receives the QR
overlay; every later page passes through unchanged; and the first page's
original content is merged with the overlay (all original elements remain
present alongside the new overlay element), not replaced.  On a successful
run, `add_qr_to_pdf` writes exactly this merged document to the output
path. -/
theorem c7_overlay_first_page_only (p0 : Page) (rest : List Page)
    (url : String) :
    (addQrPages p0 rest url).get? 0 = some (p0 ++ [Elem.qr url]) ∧
    (∀ k : Nat, (addQrPages p0 rest url).get? (k + 1) = rest.get? k) ∧
    (∀ e : Elem, e ∈ p0 → e ∈ p0 ++ [Elem.qr url]) ∧
    Elem.qr url ∈ p0 ++ [Elem.qr url] ∧
    (addQrPages p0 rest url).length = rest.length + 1 ∧
    (∀ (disk : List (String × PDF)) (inPath outPath : String),
        readFile disk inPath = some (p0 :: rest) →
        addQrToPdf disk inPath outPath url none =
          (true, writeFile disk outPath (addQrPages p0 rest url), [])) := by
  refine ⟨rfl, fun k => rfl, fun e he => List.mem_append_left _ he,
    List.mem_append_right _ (List.mem_singleton_self _),
    by simp [addQrPages], ?_⟩
  intro disk inPath outPath hread
  rw [addQrToPdf, hread]
  simp

/-- Witness for C7 at a concrete two-page document. -/
theorem c7_overlay_first_page_only_witness :
    (addQrPages [Elem.orig 3] [[Elem.orig 4]] "u").get? 1 =
      some [Elem.orig 4] ∧
    Elem.orig 3 ∈ ([Elem.orig 3] ++ [Elem.qr "u"]) :=
  ⟨(c7_overlay_first_page_only [Elem.orig 3] [[Elem.orig 4]] "u").2.1 0,
   (c7_overlay_first_page_only [Elem.orig 3] [[Elem.orig 4]] "u").2.2.1
     (Elem.orig 3) (by decide)⟩

/-- C9 counterexample: under the conversion rule the claim itself states
(914400 units per inch, truncated to integer), 0.9 inches converts to
822960 units, not to the claimed 823680. -/
theorem c9_unit_conversion_counterexample :
    inchesToEmu (9 / 10) = 822960 ∧ (822960 : ℤ) ≠ 823680 := by
  constructor
  · have h : (9 / 10 : ℚ) * 914400 = 822960 := by norm_num
    rw [inchesToEmu, h]
    norm_num
  · decide

/-- C9 (amended): for every nonnegative length in inches, the conversion to
the flow-document format's native unit is the truncation (floor, for
nonnegative input) of 914400 times the value, so the drift is below one
unit; at (6.5, 9.5, 0.9) inches it yields 5943600, 8686800 and 822960
exactly. -/
theorem c9_unit_conversion (q : ℚ) (hq : 0 ≤ q) :
    inchesToEmu q = ⌊q * 914400⌋ ∧
    (inchesToEmu q : ℚ) ≤ q * 914400 ∧
    q * 914400 - 1 < (inchesToEmu q : ℚ) := by
  have h : inchesToEmu q = ⌊q * 914400⌋ := by
    rw [inchesToEmu, Int.tdiv_eq_ediv (by positivity) (by positivity),
      Rat.floor_def]
  refine ⟨h, ?_, ?_⟩
  · rw [h]
    exact Int.floor_le _
  · rw [h]
    exact Int.sub_one_lt_floor _

/-- Witness for C9 at the three concrete lengths of the claim. -/
theorem c9_unit_conversion_witness :
    inchesToEmu (13 / 2) = 5943600 ∧ inchesToEmu (19 / 2) = 8686800 ∧
    inchesToEmu (9 / 10) = 822960 ∧
    (9 / 10 : ℚ) * 914400 - 1 < (inchesToEmu (9 / 10) : ℚ) := by
  refine ⟨?_, ?_, ?_, (c9_unit_conversion (9 / 10) (by norm_num)).2.2⟩
  · have h : (13 / 2 : ℚ) * 914400 = 5943600 := by norm_num
    rw [inchesToEmu, h]
    norm_num
  · have h : (19 / 2 : ℚ) * 914400 = 8686800 := by norm_num
    rw [inchesToEmu, h]
    norm_num
  · have h : (9 / 10 : ℚ) * 914400 = 822960 := by norm_num
    rw [inchesToEmu, h]
    norm_num

/-- C10: with key `1001` occurring three times and the second and third
occurrences sharing county `B`, two distinct records produce the identical
base name `1001_B_Mailout`; the later record's document overwrites the
earlier one on disk while both identical paths are appended to the
generated list, so the combined output contains the later record's content
twice and the middle record's merged content is lost. -/
theorem c10_collision_overwrite :
    (runMerge [⟨"1001", "A", ""⟩, ⟨"1001", "B", ""⟩, ⟨"1001", "B", ""⟩]
        noFail).generated =
      ["1001_Mailout.docx", "1001_B_Mailout.docx", "1001_B_Mailout.docx"] ∧
    readFile (runMerge [⟨"1001", "A", ""⟩, ⟨"1001", "B", ""⟩,
        ⟨"1001", "B", ""⟩] noFail).disk "1001_B_Mailout.docx" = some 2 ∧
    combineDocx
        (runMerge [⟨"1001", "A", ""⟩, ⟨"1001", "B", ""⟩, ⟨"1001", "B", ""⟩]
          noFail).generated
        (runMerge [⟨"1001", "A", ""⟩, ⟨"1001", "B", ""⟩, ⟨"1001", "B", ""⟩]
          noFail).disk noFail noFail =
      some [DocItem.content 0, DocItem.pageBreak, DocItem.content 2,
        DocItem.pageBreak, DocItem.content 2] ∧
    DocItem.content 1 ∉
      (combineDocx
        (runMerge [⟨"1001", "A", ""⟩, ⟨"1001", "B", ""⟩, ⟨"1001", "B", ""⟩]
          noFail).generated
        (runMerge [⟨"1001", "A", ""⟩, ⟨"1001", "B", ""⟩, ⟨"1001", "B", ""⟩]
          noFail).disk noFail noFail).getD [] := by
  refine ⟨by decide, by decide, by decide, by decide⟩

/-- C1: for the record at position `i` with pipeline-computed frequency `f`
and occurrence number `o`, the base name before sanitization is exactly
`account_COUNTY_Mailout` when `f > 1` and `o > 1` and exactly
`account_Mailout` otherwise; in particular, when a key occurs more than
once, only its first occurrence (occurrence number 1) omits the county
qualifier, and the qualified and unqualified names never coincide. -/
theorem c1_base_name_policy (rows : List Row) (i : Nat) (h : i < rows.length)
    (r : Row) (_hr : rows.get ⟨i, h⟩ = r) (_hv : validKey r.key = true) :
    (frequency rows r.key > 1 ∧ occurrence rows i r.key > 1 →
      baseNamePre rows i r =
        accountOf r ++ "_" ++ countyOf r ++ "_Mailout") ∧
    (¬(frequency rows r.key > 1 ∧ occurrence rows i r.key > 1) →
      baseNamePre rows i r = accountOf r ++ "_Mailout") ∧
    (frequency rows r.key > 1 → occurrence rows i r.key = 1 →
      baseNamePre rows i r = accountOf r ++ "_Mailout") ∧
    (frequency rows r.key > 1 → occurrence rows i r.key > 1 →
      baseNamePre rows i r ≠ accountOf r ++ "_Mailout") := by
  by_cases hq : frequency rows r.key > 1 ∧ occurrence rows i r.key > 1
  · refine ⟨fun _ => by rw [baseNamePre, if_pos hq], fun hn => absurd hq hn,
      fun _ ho => absurd hq (by omega), fun _ _ => ?_⟩
    rw [baseNamePre, if_pos hq]
    intro heq
    have hlen := congrArg String.length heq
    rw [String.length_append, String.length_append, String.length_append,
      String.length_append] at hlen
    have h1 : ("_" : String).length = 1 := by decide
    have h8 : ("_Mailout" : String).length = 8 := by decide
    rw [h1, h8] at hlen
    omega
  · exact ⟨fun hc => absurd hc hq, fun _ => by rw [baseNamePre, if_neg hq],
      fun _ _ => by rw [baseNamePre, if_neg hq], fun hf ho => absurd ⟨hf, ho⟩ hq⟩

/-- Witness for C1: the claim's example — key `1001` appearing three times
with counties `A`, `A`, `B` yields base names `1001_Mailout`,
`1001_A_Mailout`, `1001_B_Mailout` in input order (and, with the `.docx`
extension, exactly these files are generated by the merge loop). -/
theorem c1_base_name_policy_witness :
    (runMerge [⟨"1001", "A", ""⟩, ⟨"1001", "A", ""⟩, ⟨"1001", "B", ""⟩]
        noFail).generated =
      ["1001_Mailout.docx", "1001_A_Mailout.docx", "1001_B_Mailout.docx"] ∧
    baseNamePre [⟨"1001", "A", ""⟩, ⟨"1001", "A", ""⟩, ⟨"1001", "B", ""⟩] 0
      ⟨"1001", "A", ""⟩ = "1001_Mailout" ∧
    baseNamePre [⟨"1001", "A", ""⟩, ⟨"1001", "A", ""⟩, ⟨"1001", "B", ""⟩] 1
      ⟨"1001", "A", ""⟩ = "1001_A_Mailout" ∧
    baseNamePre [⟨"1001", "A", ""⟩, ⟨"1001", "A", ""⟩, ⟨"1001", "B", ""⟩] 2
      ⟨"1001", "B", ""⟩ = "1001_B_Mailout" := by
  refine ⟨by decide, by decide, ?_, by decide⟩
  have h := (c1_base_name_policy
    [⟨"1001", "A", ""⟩, ⟨"1001", "A", ""⟩, ⟨"1001", "B", ""⟩] 1 (by decide)
    ⟨"1001", "A", ""⟩ (by decide) (by decide)).1 ⟨by decide, by decide⟩
  rw [h]
  decide

/-- C3: for every key value `k` that passes the key filter, the
pipeline-computed frequency of `k` (a count over the full data frame,
computed before the generation loop) equals the frequency computed over the
filtered record set only, and the occurrence number of the record at any
position `i` equals its occurrence number within the filtered record set at
its filtered position — so both are unaffected by the presence of
records with empty/`nan` keys, and, being functions of the row list alone,
by later per-record generation failures. -/
theorem c3_counts_over_filtered (rows : List Row) (k : String)
    (hk : validKey k = true) :
    frequency rows k =
      frequency (rows.filter (fun r => validKey r.key)) k ∧
    ∀ i : Nat,
      occurrence rows i k =
        occurrence (rows.filter (fun r => validKey r.key))
          (((rows.take i).filter (fun r => validKey r.key)).length) k := by
  constructor
  · rw [frequency, frequency, filter_key_of_valid k hk]
  · intro i
    rw [occurrence, occurrence, filter_take_prefix, filter_key_of_valid k hk]

/-- Witness for C3: a table with an interleaved `nan`-key record; the
frequency and occurrence of key `1001` are the same whether computed over
the whole table or over the filtered table. -/
theorem c3_counts_over_filtered_witness :
    frequency [⟨"1001", "A", ""⟩, ⟨"nan", "B", ""⟩, ⟨"1001", "C", ""⟩]
      "1001" = 2 ∧
    frequency [⟨"1001", "A", ""⟩, ⟨"nan", "B", ""⟩, ⟨"1001", "C", ""⟩]
        "1001" =
      frequency (([⟨"1001", "A", ""⟩, ⟨"nan", "B", ""⟩,
        ⟨"1001", "C", ""⟩] : List Row).filter
          (fun r => validKey r.key)) "1001" ∧
    occurrence [⟨"1001", "A", ""⟩, ⟨"nan", "B", ""⟩, ⟨"1001", "C", ""⟩] 2
        "1001" =
      occurrence (([⟨"1001", "A", ""⟩, ⟨"nan", "B", ""⟩,
          ⟨"1001", "C", ""⟩] : List Row).filter (fun r => validKey r.key))
        ((([⟨"1001", "A", ""⟩, ⟨"nan", "B", ""⟩,
          ⟨"1001", "C", ""⟩] : List Row).take 2
          |>.filter (fun r => validKey r.key)).length) "1001" :=
  ⟨by decide,
   (c3_counts_over_filtered [⟨"1001", "A", ""⟩, ⟨"nan", "B", ""⟩,
     ⟨"1001", "C", ""⟩] "1001" (by decide)).1,
   (c3_counts_over_filtered [⟨"1001", "A", ""⟩, ⟨"nan", "B", ""⟩,
     ⟨"1001", "C", ""⟩] "1001" (by decide)).2 2⟩

/-- C6 counterexample: the record with key `NaN` has a key value that is
non-empty and differs from the literal string `nan`, yet the pipeline skips
it (the key filter strips and lowercases before comparing), generating no
artifact and counting no error — refuting the claimed biconditional. -/
theorem c6_key_filter_counterexample :
    validKey "NaN" = false ∧
    ("NaN" ≠ "" ∧ "NaN" ≠ "nan") ∧
    (runMerge [⟨"NaN", "X", ""⟩] noFail).generated = [] ∧
    (runMerge [⟨"NaN", "X", ""⟩] noFail).errors = 0 :=
  ⟨by decide, ⟨by decide, by decide⟩, by decide, by decide⟩

/-- C6 (amended): a record is processed by the pipeline if and only if its
key-column value, after stripping surrounding whitespace, is non-empty and
its lowercasing is not `nan`; records failing this check are skipped
silently (no warning, and never counted in the error tally, under any
failure oracle), and the number of excluded records plus the number of
processed records equals the table size. -/
theorem c6_key_filter (rows : List Row) :
    (runMerge rows noFail).generated =
      (rows.enum.filter (fun p => validKey p.2.key)).map
        (fun p => docxName rows p.1 p.2) ∧
    (runMerge rows noFail).generated.length =
      (rows.filter (fun r => validKey r.key)).length ∧
    (runMerge rows noFail).warnings = [] ∧
    (runMerge rows noFail).errors = 0 ∧
    (∀ fails : Nat → Bool,
        (runMerge rows fails).errors =
          (rows.enum.filter (isFail fails)).length) ∧
    (rows.filter (fun r => validKey r.key)).length +
      (rows.filter (fun r => !validKey r.key)).length = rows.length := by
  have hok : rows.enum.filter (isOk noFail) =
      rows.enum.filter (fun p => validKey p.2.key) := by
    apply List.filter_congr
    intro p _
    rw [isOk, noFail]
    simp
  have hfail : rows.enum.filter (isFail noFail) = [] := by
    have : rows.enum.filter (isFail noFail) =
        rows.enum.filter (fun _ => false) := by
      apply List.filter_congr
      intro p _
      rw [isFail, noFail]
      simp
    rw [this, List.filter_false]
  refine ⟨?_, ?_, ?_, ?_, ?_, ?_⟩
  · rw [runMerge_spec, hok]
  · rw [runMerge_spec]
    simp only [List.length_map, hok]
    have := length_filter_enumFrom (fun r => validKey r.key) rows 0
    simpa [List.enum] using this
  · rw [runMerge_spec]
    simp [hfail]
  · rw [runMerge_spec]
    simp [hfail]
  · intro fails
    rw [runMerge_spec]
  · exact length_filter_add_length_not _ rows

/-- C2 counterexample: with the first listed document missing on disk, the
combine does not silently skip it — `Document(generated_docx_list[0])`
raises outside any record-level handler, failing the whole run (modelled by
`none`) instead of producing B's content. -/
theorem c2_combine_counterexample :
    combineDocx ["A.docx", "B.docx"] [("B.docx", 1)] noFail noFail =
      none := by
  decide

/-- C2 (amended): the combiner seeds the combined document directly from
the first listed document, which must exist and parse (only then does the
combine — and the run — survive); the remaining documents are appended in
input order, a page break before each appended document; any non-first
document missing on disk is silently skipped (so `[A, B, C]` with `B`
missing yields A's content then C's content with exactly one page break
between them); a non-first document whose parse or append fails is skipped
without aborting the combine. -/
theorem c2_combine_order_and_skips :
    (∀ (disk : List (String × Nat)) (fs : List String) (j : Nat),
        combGo disk noFail noFail fs j = expectedTail disk fs) ∧
    (∀ (disk : List (String × Nat)) (pf af : Nat → Bool) (f0 : String)
        (rest : List String) (c0 : Nat),
        readFile disk f0 = some c0 → pf 0 = false →
        combineDocx (f0 :: rest) disk pf af =
          some (DocItem.content c0 :: combGo disk pf af rest 1)) ∧
    (∀ (disk : List (String × Nat)) (pf af : Nat → Bool) (f : String)
        (fs : List String) (j : Nat),
        readFile disk f = none →
        combGo disk pf af (f :: fs) j = combGo disk pf af fs (j + 1)) ∧
    (∀ (disk : List (String × Nat)) (pf af : Nat → Bool) (f : String)
        (fs : List String) (j : Nat) (c : Nat),
        readFile disk f = some c → pf j = false → af j = true →
        combGo disk pf af (f :: fs) j =
          DocItem.pageBreak :: combGo disk pf af fs (j + 1)) ∧
    (∀ (disk : List (String × Nat)) (pf af : Nat → Bool) (f : String)
        (fs : List String) (j : Nat) (c : Nat),
        readFile disk f = some c → pf j = true →
        combGo disk pf af (f :: fs) j = combGo disk pf af fs (j + 1)) ∧
    combineDocx ["A.docx", "B.docx", "C.docx"]
        [("A.docx", 0), ("C.docx", 2)] noFail noFail =
      some [DocItem.content 0, DocItem.pageBreak, DocItem.content 2] :=
  ⟨fun disk => combGo_nofail disk,
   fun disk pf af f0 rest c0 h0 hp0 =>
     combineDocx_seeded disk pf af f0 rest c0 h0 hp0,
   fun disk pf af f fs j h => combGo_skip_missing disk pf af f fs j h,
   fun disk pf af f fs j c h hp ha =>
     combGo_append_fail disk pf af f fs j c h hp ha,
   fun disk pf af f fs j c h hp => combGo_parse_fail disk pf af f fs j c h hp,
   by decide⟩

/-- Witness for C2 at a concrete one-document list. -/
theorem c2_combine_order_and_skips_witness :
    combineDocx ["X.docx"] [("X.docx", 5)] noFail noFail =
      some (DocItem.content 5 :: combGo [("X.docx", 5)] noFail noFail [] 1) :=
  c2_combine_order_and_skips.2.1 [("X.docx", 5)] noFail noFail "X.docx" [] 5
    (by decide) (by decide)

/-- C8: for a record whose merge step raises, the error counter counts it
(together with every other failing valid-key record), a warning naming the
record's account is emitted, no artifact of that record enters the
generated list (which consists exactly of the successful records' files, in
input order), nothing on disk holds that record's content — hence the
combined output never contains it — and every other valid-key record whose
merge succeeds still has its file generated: the batch never aborts. -/
theorem c8_merge_error_isolation (rows : List Row) (fails : Nat → Bool)
    (i : Nat) (h : i < rows.length)
    (hv : validKey (rows.get ⟨i, h⟩).key = true) (hf : fails i = true) :
    accountOf (rows.get ⟨i, h⟩) ∈ (runMerge rows fails).warnings ∧
    (runMerge rows fails).errors =
      (rows.enum.filter (isFail fails)).length ∧
    1 ≤ (runMerge rows fails).errors ∧
    (runMerge rows fails).generated =
      (rows.enum.filter (isOk fails)).map (fun p => docxName rows p.1 p.2) ∧
    (∀ p : String, readFile (runMerge rows fails).disk p ≠ some i) ∧
    (∀ (pf af : Nat → Bool) (l : List DocItem),
        combineDocx (runMerge rows fails).generated
          (runMerge rows fails).disk pf af = some l →
        DocItem.content i ∉ l) ∧
    (∀ (j : Nat) (hj : j < rows.length),
        validKey (rows.get ⟨j, hj⟩).key = true → fails j = false →
        docxName rows j (rows.get ⟨j, hj⟩) ∈ (runMerge rows fails).generated) := by
  have hmemf : (i, rows.get ⟨i, h⟩) ∈ rows.enum.filter (isFail fails) := by
    apply List.mem_filter.mpr
    refine ⟨mem_enum_get rows i h, ?_⟩
    rw [isFail]
    simp [hf]
    exact hv
  have hdisk : ∀ p : String,
      readFile (runMerge rows fails).disk p ≠ some i := by
    intro p hcontra
    have := runMerge_disk_ok rows fails p i hcontra
    rw [this] at hf
    cases hf
  refine ⟨?_, ?_, ?_, ?_, hdisk, ?_, ?_⟩
  · rw [runMerge_spec]
    exact List.mem_map.mpr ⟨(i, rows.get ⟨i, h⟩), hmemf, rfl⟩
  · rw [runMerge_spec]
  · rw [runMerge_spec]
    exact List.length_pos.mpr (List.ne_nil_of_mem hmemf)
  · rw [runMerge_spec]
  · intro pf af l hsome hmem
    rcases hgen : (runMerge rows fails).generated with _ | ⟨f0, rest⟩
    · rw [hgen, combineDocx] at hsome
      cases hsome
    · rw [hgen, combineDocx] at hsome
      rcases hr0 : readFile (runMerge rows fails).disk f0 with _ | c0
      · rw [hr0] at hsome
        cases hsome
      · rw [hr0] at hsome
        dsimp only at hsome
        by_cases hpf : pf 0 = true
        · rw [if_pos hpf] at hsome
          cases hsome
        · rw [if_neg hpf] at hsome
          have hl : l = DocItem.content c0 ::
              combGo (runMerge rows fails).disk pf af rest 1 :=
            (Option.some.injEq _ _ ▸ hsome).symm
          rw [hl] at hmem
          rcases List.mem_cons.mp hmem with hc0 | hrest
          · have heq : c0 = i := by
              injection hc0 with e
              exact e.symm
            rw [heq] at hr0
            exact hdisk f0 hr0
          · rcases mem_combGo _ pf af rest 1 _ hrest with hb | ⟨f, c, hrf, hcc⟩
            · cases hb
            · have heq : c = i := by
                injection hcc with e
                exact e.symm
              rw [heq] at hrf
              exact hdisk f hrf
  · intro j hj hvj hfj
    rw [runMerge_spec]
    apply List.mem_map.mpr
    refine ⟨(j, rows.get ⟨j, hj⟩), ?_, rfl⟩
    apply List.mem_filter.mpr
    refine ⟨mem_enum_get rows j hj, ?_⟩
    rw [isOk]
    simp [hfj]
    exact hvj

/-- Witness for C8: a two-record table whose first record's merge raises;
the error is counted, the warning names account 1001, and record 2002 is
still generated. -/
theorem c8_merge_error_isolation_witness :
    (runMerge [⟨"1001", "A", ""⟩, ⟨"2002", "B", ""⟩]
        (fun n => n == 0)).errors = 1 ∧
    (runMerge [⟨"1001", "A", ""⟩, ⟨"2002", "B", ""⟩]
        (fun n => n == 0)).generated = ["2002_Mailout.docx"] ∧
    accountOf (List.get [⟨"1001", "A", ""⟩, ⟨"2002", "B", ""⟩]
        ⟨0, by decide⟩) ∈
      (runMerge [⟨"1001", "A", ""⟩, ⟨"2002", "B", ""⟩]
        (fun n => n == 0)).warnings :=
  ⟨by decide, by decide,
   (c8_merge_error_isolation [⟨"1001", "A", ""⟩, ⟨"2002", "B", ""⟩]
     (fun n => n == 0) 0 (by decide) (by decide) (by decide)).1⟩

/-- C4 counterexample: a QR placement that fails while the output file is
open for writing.  The failure is caught and warned, but nothing counts it
(`qr_count` stays 0 and no error counter exists in the QR loop), and the
record's artifact is not retained unchanged: `open(out_pdf_path, "wb")`
already truncated it, so the PDF on disk afterwards is empty instead of the
original one-page document. -/
theorem c4_qr_failure_counterexample :
    (runQrStep [⟨"1001", "A", "u"⟩] [("1001_Mailout.pdf", [[Elem.orig 7]])]
        (fun _ => some QrStage.write)).qrCount = 0 ∧
    (runQrStep [⟨"1001", "A", "u"⟩] [("1001_Mailout.pdf", [[Elem.orig 7]])]
        (fun _ => some QrStage.write)).warnings = ["1001_Mailout.pdf"] ∧
    readFile (runQrStep [⟨"1001", "A", "u"⟩]
        [("1001_Mailout.pdf", [[Elem.orig 7]])]
        (fun _ => some QrStage.write)).disk "1001_Mailout.pdf" =
      some ([] : PDF) ∧
    some ([] : PDF) ≠ some [[Elem.orig 7]] :=
  ⟨by decide, by decide, by decide, by decide⟩

/-- C4 (amended): a failure of `add_qr_to_pdf` for the record at position
`i` is caught at the per-record boundary: processing the rest of the
records continues from a state that differs only in the warning naming the
record's PDF file; `qr_count` is not incremented (no counter records the
failure), and the record's artifact is retained unchanged whenever the
failure occurs before the output write — a failure at the write stage of a
non-empty document instead leaves the artifact truncated. -/
theorem c4_qr_failure_isolation (rows : List Row)
    (qrFail : Nat → Option QrStage) (l1 l2 : List (Nat × Row)) (i : Nat)
    (r : Row) (st : QrState) (s : QrStage) (hs : qrFail i = some s)
    (hv : validKey r.key = true) (hu : pyStrip r.url ≠ "") (pages : PDF)
    (hp : readFile (List.foldl (qrStep rows qrFail) st l1).disk
      (pdfName rows i r) = some pages) :
    List.foldl (qrStep rows qrFail) st (l1 ++ (i, r) :: l2) =
      List.foldl (qrStep rows qrFail)
        { qrCount := (List.foldl (qrStep rows qrFail) st l1).qrCount,
          disk :=
            if s = QrStage.write ∧ pages ≠ [] then
              writeFile (List.foldl (qrStep rows qrFail) st l1).disk
                (pdfName rows i r) []
            else (List.foldl (qrStep rows qrFail) st l1).disk,
          warnings := (List.foldl (qrStep rows qrFail) st l1).warnings ++
            [pdfName rows i r] } l2 := by
  rw [List.foldl_append, List.foldl_cons]
  congr 1
  have hcond : pyStrip r.url ≠ "" ∧
      (readFile (List.foldl (qrStep rows qrFail) st l1).disk
        (pdfName rows i r)).isSome := by
    refine ⟨hu, ?_⟩
    rw [hp]
    rfl
  rw [qrStep]
  simp only [hv, if_true]
  rw [if_pos hcond]
  rw [addQrToPdf, hp, hs]
  cases s with
  | read => simp
  | makeQr => simp
  | overlay => simp
  | write =>
    cases pages with
    | nil => simp
    | cons p0 prest => simp

/-- Witness for C4 at a concrete single-record run failing at the QR-image
stage: the PDF on disk is untouched and the count stays at the prefix
value. -/
theorem c4_qr_failure_isolation_witness :
    List.foldl
        (qrStep [⟨"1001", "A", "u"⟩] (fun _ => some QrStage.makeQr))
        ⟨0, [("1001_Mailout.pdf", [[Elem.orig 7]])], []⟩
        ([] ++ (0, (⟨"1001", "A", "u"⟩ : Row)) :: []) =
      List.foldl (qrStep [⟨"1001", "A", "u"⟩] (fun _ => some QrStage.makeQr))
        { qrCount := (List.foldl
            (qrStep [⟨"1001", "A", "u"⟩] (fun _ => some QrStage.makeQr))
            ⟨0, [("1001_Mailout.pdf", [[Elem.orig 7]])], []⟩ []).qrCount,
          disk :=
            if QrStage.makeQr = QrStage.write ∧
                ([[Elem.orig 7]] : PDF) ≠ [] then
              writeFile (List.foldl
                (qrStep [⟨"1001", "A", "u"⟩] (fun _ => some QrStage.makeQr))
                ⟨0, [("1001_Mailout.pdf", [[Elem.orig 7]])], []⟩ []).disk
                (pdfName [⟨"1001", "A", "u"⟩] 0 ⟨"1001", "A", "u"⟩) []
            else (List.foldl
              (qrStep [⟨"1001", "A", "u"⟩] (fun _ => some QrStage.makeQr))
              ⟨0, [("1001_Mailout.pdf", [[Elem.orig 7]])], []⟩ []).disk,
          warnings := (List.foldl
            (qrStep [⟨"1001", "A", "u"⟩] (fun _ => some QrStage.makeQr))
            ⟨0, [("1001_Mailout.pdf", [[Elem.orig 7]])], []⟩ []).warnings ++
            [pdfName [⟨"1001", "A", "u"⟩] 0 ⟨"1001", "A", "u"⟩] } [] :=
  c4_qr_failure_isolation [⟨"1001", "A", "u"⟩]
    (fun _ => some QrStage.makeQr) [] [] 0 ⟨"1001", "A", "u"⟩
    ⟨0, [("1001_Mailout.pdf", [[Elem.orig 7]])], []⟩ QrStage.makeQr rfl
    (by decide) (by decide) [[Elem.orig 7]] (by decide)
end MMQR
